/-
  Verification of the skill_system2 capability registry and tool-exposure core.

  Shallow embedding of:
    - skill_system2/core/state.py        (unlock-state reducers)
    - skill_system2/core/base_skill.py   (SkillMetadata, BaseSkill.validate)
    - skill_system2/core/registry.py     (SkillRegistry)
    - skill_system2/middleware/skill_middleware.py,
      skill_system2/middleware/skill_middleware_simple.py (exposure middleware)

  Python dicts are embedded as insertion-ordered association lists with unique
  keys; Python exceptions as an explicit error type threaded through `Except`.
-/
import Mathlib

namespace SkillSystem2

/-! ## Python value model -/

/-- Data of a concrete `BaseTool` (name and description are all the core reads). -/
structure ToolData where
  name : String
  description : String := ""
deriving DecidableEq, Repr

/-- A Python variable of static type `BaseTool` can also hold `None`
(e.g. a skill whose `get_loader_tool` returns `None`); `Option.none` is
Python `None`. -/
abbrev Tool := Option ToolData

/-- The Python exceptions the embedded core can raise.
`valueError` is Python's built-in `ValueError`; `skillLoadError` and
`skillNotFoundError` come from `core/exceptions.py` (each carries the skill
name baked into its message, kept here as separate fields); `keyError` is
Python's built-in `KeyError`. -/
inductive PyError where
  | valueError (msg : String)
  | skillLoadError (skillName : String) (reason : String)
  | skillNotFoundError (skillName : String)
  | keyError (key : String)
deriving DecidableEq, Repr

/-! ## base_skill.py -/

/-- `SkillMetadata` dataclass from `core/base_skill.py`. -/
structure SkillMetadata where
  name : String
  description : String
  version : String := "1.0.0"
  tags : List String := []
  visibility : String := "public"
  dependencies : List String := []
  required_permissions : List String := []
  author : Option String := none
  enabled : Bool := true
deriving DecidableEq, Repr

/-- A `BaseSkill` as the registry observes it: its metadata, the list returned
by `get_tools()` and the value returned by `get_loader_tool()` (which a
misbehaving subclass may return as `None`). -/
structure BaseSkill where
  metadata : SkillMetadata
  tools : List Tool
  loaderTool : Tool
deriving DecidableEq, Repr

/-- `BaseSkill.validate` (base_skill.py lines 78-87): raises `ValueError` on an
empty name, empty description, empty tool list, or `None` loader tool;
returns `True` otherwise.  Python truthiness: `not s` for a string is the
empty-string test, `not l` for a list is the empty-list test, `not t` for a
`BaseTool`-or-`None` value is the `None` test. -/
def BaseSkill.validate (s : BaseSkill) : Except PyError Bool :=
  if s.metadata.name = "" then
    .error (.valueError "Skill name cannot be empty")
  else if s.metadata.description = "" then
    .error (.valueError "Skill description cannot be empty")
  else if s.tools = [] then
    .error (.valueError "Skill must provide at least one tool")
  else if s.loaderTool = none then
    .error (.valueError "Skill must provide a loader tool")
  else
    .ok true

/-! ## state.py — unlock-state reducers -/

/-- `skill_list_reducer` (state.py line 10): replace mode. -/
def skill_list_reducer (_current new : List String) : List String :=
  new

/-- `skill_list_accumulator` (state.py lines 14-18): if `current` is empty
return `new`, else `current + [s for s in new if s not in current]`. -/
def skill_list_accumulator (current new : List String) : List String :=
  if current = [] then new
  else current ++ new.filter (fun s => !current.contains s)

/-- Python slice `l[-n:]` for a non-negative `n`: the whole list when `n = 0`
(since `l[-0:]` is `l[0:]`), otherwise the last `n` elements. -/
def pySliceLast (l : List α) (n : Nat) : List α :=
  if n = 0 then l else l.drop (l.length - n)

/-- The reducer produced by the factory `skill_list_fifo(max_skills)`
(state.py lines 22-28): `new[:max_skills]` when `current` is empty, else
`combined[-max_skills:]` where `combined` is the accumulate-style merge. -/
def skill_list_fifo (max_skills : Nat) (current new : List String) : List String :=
  if current = [] then new.take max_skills
  else pySliceLast (current ++ new.filter (fun s => !current.contains s)) max_skills

/-! ## Python dict model

A `dict` is an insertion-ordered association list.  `dictInsert` models
`d[k] = v`: an existing key keeps its position and gets the new value, a new
key is appended.  `dictDelete` models `del d[k]` (raises `KeyError` when the
key is absent).  Keys stay unique when every update goes through
`dictInsert`. -/

def dictContains (d : List (String × α)) (k : String) : Bool :=
  d.any (fun p => p.1 = k)

def dictGet? (d : List (String × α)) (k : String) : Option α :=
  (d.find? (fun p => p.1 = k)).map Prod.snd

def dictInsert (d : List (String × α)) (k : String) (v : α) : List (String × α) :=
  if dictContains d k then
    d.map (fun p => if p.1 = k then (k, v) else p)
  else
    d ++ [(k, v)]

def dictDelete (d : List (String × α)) (k : String) :
    Except PyError (List (String × α)) :=
  if dictContains d k then .ok (d.filter (fun p => p.1 ≠ k))
  else .error (.keyError k)

def dictKeys (d : List (String × α)) : List String :=
  d.map Prod.fst

def dictValues (d : List (String × α)) : List α :=
  d.map Prod.snd

/-! ## registry.py — SkillRegistry -/

/-- The two stores of `SkillRegistry.__init__`: `_skills` and
`_metadata_cache`. -/
structure SkillRegistry where
  _skills : List (String × BaseSkill)
  _metadata_cache : List (String × SkillMetadata)
deriving DecidableEq, Repr

/-- `SkillRegistry()` — both dicts start empty. -/
def SkillRegistry.empty : SkillRegistry :=
  { _skills := [], _metadata_cache := [] }

/-- `SkillRegistry.register` (registry.py lines 35-44): validate first (a
validation failure propagates and nothing is written), then write the skill
into `_skills` and its metadata into `_metadata_cache` under
`skill.metadata.name` (a duplicate name only logs a warning and overwrites). -/
def SkillRegistry.register (r : SkillRegistry) (skill : BaseSkill) :
    Except PyError SkillRegistry :=
  match skill.validate with
  | .error e => .error e
  | .ok _ =>
      .ok { _skills := dictInsert r._skills skill.metadata.name skill,
            _metadata_cache :=
              dictInsert r._metadata_cache skill.metadata.name skill.metadata }

/-- `SkillRegistry.unregister` (registry.py lines 47-51): when the name is in
`_skills`, `del` it from `_skills` and then from `_metadata_cache`; otherwise
do nothing.  The mutations happen in order, so the result carries the state
reached before any raised `KeyError` together with that error (the error can
only occur when the two dicts are out of sync). -/
def SkillRegistry.unregister (r : SkillRegistry) (skill_name : String) :
    SkillRegistry × Option PyError :=
  if dictContains r._skills skill_name then
    match dictDelete r._skills skill_name with
    | .error e => (r, some e)
    | .ok s =>
        match dictDelete r._metadata_cache skill_name with
        | .error e => ({ r with _skills := s }, some e)
        | .ok m => ({ _skills := s, _metadata_cache := m }, none)
  else (r, none)

/-- `SkillRegistry.get_all_loader_tools` with `filter_fn = None`
(registry.py lines 79-92): iterate `list(self._skills.keys())` in dict order,
look each skill up, and append its loader tool when its metadata is enabled.
Iterating the keys and indexing back into the dict visits exactly the dict's
(key, value) pairs in order. -/
def SkillRegistry.get_all_loader_tools (r : SkillRegistry) : List Tool :=
  r._skills.foldl
    (fun loaders p =>
      if p.2.metadata.enabled then loaders ++ [p.2.loaderTool] else loaders)
    []

/-- `SkillRegistry.get_tools_for_skills` (registry.py lines 111-120): start
from all loader tools, then for each requested name that is a key of
`_skills` and whose skill is enabled, extend with that skill's tools. -/
def SkillRegistry.get_tools_for_skills (r : SkillRegistry)
    (skill_names : List String) : List Tool :=
  skill_names.foldl
    (fun tools name =>
      match dictGet? r._skills name with
      | some skill =>
          if skill.metadata.enabled then tools ++ skill.tools else tools
      | none => tools)
    r.get_all_loader_tools

/-- Python `needle in haystack` on strings: contiguous-substring test. -/
def pyInStr (needle haystack : String) : Bool :=
  decide (needle.toList <:+: haystack.toList)

/-- The per-skill acceptance test of `SkillRegistry.search` (registry.py
lines 187-209), read off the three `continue` guards: a non-empty `query`
must appear case-insensitively in the name or the description; a non-empty
`tags` list must share at least one exact tag with the metadata; a truthy
`visibility` (not `None`, not `""`) must equal the metadata's visibility. -/
def searchAccepts (query : String) (tags : List String)
    (visibility : Option String) (meta : SkillMetadata) : Bool :=
  (if query ≠ "" then
     pyInStr query.toLower meta.name.toLower
       || pyInStr query.toLower meta.description.toLower
   else true)
  && (if tags ≠ [] then tags.any (fun tag => meta.tags.contains tag) else true)
  && (match visibility with
      | some v => if v ≠ "" then meta.visibility = v else true
      | none => true)

/-- `SkillRegistry.search`: collect, in cache order, every cached metadata
record passing the three guards. -/
def SkillRegistry.search (r : SkillRegistry) (query : String := "")
    (tags : List String := []) (visibility : Option String := none) :
    List SkillMetadata :=
  (dictValues r._metadata_cache).filter (searchAccepts query tags visibility)

/-! ### discover_and_load

`SkillRegistry.discover_and_load` (registry.py lines 123-151) walks the
filesystem and imports modules; those effects are embedded as an explicit
description of what the registry would observe in each directory entry:
either the entry is not a directory, or it has no `<module_name>.py` file,
or loading it yields `_load_skill_from_file`'s outcome — an exception
(missing `create_skill`, factory raising, wrong return type, import error)
or a `BaseSkill`. -/

instance {ε α : Type} [DecidableEq ε] [DecidableEq α] :
    DecidableEq (Except ε α) := fun a b =>
  match a, b with
  | .error e1, .error e2 =>
      if h : e1 = e2 then .isTrue (by rw [h]) else .isFalse (by simp [h])
  | .ok x, .ok y =>
      if h : x = y then .isTrue (by rw [h]) else .isFalse (by simp [h])
  | .error _, .ok _ => .isFalse (by simp)
  | .ok _, .error _ => .isFalse (by simp)

inductive SubdirEntry where
  | notADir
  | noModuleFile
  | loads (outcome : Except PyError BaseSkill)
deriving DecidableEq, Repr

/-- One iteration of the `for skill_path in skills_dir.iterdir()` loop: the
`try` block registers the loaded skill and bumps the count; any exception
(from the load or from `register`'s validation) is caught, logged, and the
loop continues with registry and count unchanged. -/
def discoverStep (acc : SkillRegistry × Nat) (entry : SubdirEntry) :
    SkillRegistry × Nat :=
  match entry with
  | .notADir => acc
  | .noModuleFile => acc
  | .loads (.error _) => acc
  | .loads (.ok skill) =>
      match acc.1.register skill with
      | .ok r2 => (r2, acc.2 + 1)
      | .error _ => acc

/-- `SkillRegistry.discover_and_load`: 0 immediately when the directory does
not exist; otherwise fold the per-entry step over the directory listing and
return the updated registry with the count of successfully loaded skills. -/
def SkillRegistry.discover_and_load (r : SkillRegistry) (dirExists : Bool)
    (entries : List SubdirEntry) : SkillRegistry × Nat :=
  if dirExists then entries.foldl discoverStep (r, 0) else (r, 0)

/-! ## middleware/skill_middleware.py — SkillMiddleware -/

namespace Middleware

/-- `SkillMiddleware.__init__` (skill_middleware.py lines 24-34): stores the
registry, the verbose flag and the optional `filter_fn`. -/
structure SkillMiddleware where
  registry : SkillRegistry
  verbose : Bool := false
  filter_fn : Option (Tool → Bool) := none

/-- `SkillMiddleware._get_filtered_tools` (skill_middleware.py lines 38-40):
returns `self.registry.get_tools_for_skills(skills_loaded)`.  Note the body
never consults `self.filter_fn`. -/
def SkillMiddleware.get_filtered_tools (m : SkillMiddleware)
    (skills_loaded : List String) : List Tool :=
  m.registry.get_tools_for_skills skills_loaded

end Middleware

/-! ## middleware/skill_middleware_simple.py — SimpleSkillMiddleware -/

namespace MiddlewareSimple

/-- `SimpleSkillMiddleware.__init__` (skill_middleware_simple.py lines 22-30). -/
structure SimpleSkillMiddleware where
  registry : SkillRegistry
  verbose : Bool := false
  filter_fn : Option (Tool → Bool) := none

/-- `SimpleSkillMiddleware.get_tools_for_state` (skill_middleware_simple.py
lines 33-43): assemble the registry's tools for the loaded skills and, when a
`filter_fn` was supplied (a non-`None` callable is truthy), keep only the
tools it accepts. -/
def SimpleSkillMiddleware.get_tools_for_state (m : SimpleSkillMiddleware)
    (skills_loaded : List String) : List Tool :=
  let tools := m.registry.get_tools_for_skills skills_loaded
  match m.filter_fn with
  | some f => tools.filter f
  | none => tools

end MiddlewareSimple

/-! ## Concrete fixtures used by counterexamples and witnesses -/

def loadToolX : ToolData := { name := "load_x", description := "loader for X" }

def opToolX : ToolData := { name := "x_op", description := "operation of X" }

def skillX : BaseSkill :=
  { metadata := { name := "X", description := "capability X", tags := ["math"] },
    tools := [some opToolX],
    loaderTool := some loadToolX }

/-- A registry holding exactly the enabled capability `X`
(the result of registering `skillX` into an empty registry). -/
def regX : SkillRegistry :=
  { _skills := [("X", skillX)],
    _metadata_cache := [("X", skillX.metadata)] }

/-- A skill whose metadata name is empty, so `validate` fails. -/
def badSkillEmptyName : BaseSkill :=
  { metadata := { name := "", description := "has no name" },
    tools := [some opToolX],
    loaderTool := some loadToolX }

/-- A skill named `X` with an empty description, so `validate` fails with the
description message. -/
def badSkillNoDesc : BaseSkill :=
  { metadata := { name := "X", description := "" },
    tools := [some opToolX],
    loaderTool := some loadToolX }

/-- A valid skill named `A`. -/
def skillA : BaseSkill :=
  { metadata := { name := "A", description := "capability A" },
    tools := [some { name := "a_op", description := "" }],
    loaderTool := some { name := "load_a", description := "" } }

/-- A valid skill named `C`. -/
def skillC : BaseSkill :=
  { metadata := { name := "C", description := "capability C" },
    tools := [some { name := "c_op", description := "" }],
    loaderTool := some { name := "load_c", description := "" } }

/-- A tool predicate that rejects `X`'s loader tool. -/
def fBlockLoader : Tool → Bool := fun t =>
  match t with
  | some d => d.name ≠ "load_x"
  | none => false

/-- A tool predicate that accepts exactly `X`'s loader tool. -/
def fKeepLoader : Tool → Bool := fun t =>
  match t with
  | some d => d.name = "load_x"
  | none => false

/-- A `SkillMiddleware` over `regX` whose filter rejects the loader tool. -/
def mwX : Middleware.SkillMiddleware :=
  { registry := regX, filter_fn := some fBlockLoader }

/-- A `SimpleSkillMiddleware` over `regX` whose filter keeps only the loader. -/
def mwSimpleX : MiddlewareSimple.SimpleSkillMiddleware :=
  { registry := regX, filter_fn := some fKeepLoader }

/-! ## Derived definitions used in the statements -/

/-- The last `n` elements of a list (all of it when `n` exceeds the length);
the spec's "keep only the last max_size elements". -/
def lastElems (n : Nat) (l : List α) : List α :=
  l.drop (l.length - n)

/-- The tools a single requested name contributes inside
`get_tools_for_skills`: the skill's tools when the name is registered and
enabled, nothing otherwise. -/
def skillToolsFor (r : SkillRegistry) (name : String) : List Tool :=
  match dictGet? r._skills name with
  | some skill => if skill.metadata.enabled then skill.tools else []
  | none => []

/-- Whether a `register` outcome is a raised `SkillLoadError`. -/
def isSkillLoadError : Except PyError SkillRegistry → Bool
  | .error (.skillLoadError _ _) => true
  | _ => false

/-- One mutation of a registry from the outside: a `register(skill)` call or
an `unregister(name)` call, with any raised exception caught by the caller
(the registry keeps whatever state the call reached). -/
inductive RegOp where
  | reg (skill : BaseSkill)
  | unreg (name : String)

/-- Applying one operation to a registry.  `register` mutates nothing on
failure; `unregister` returns the state it reached. -/
def applyRegOp (r : SkillRegistry) (op : RegOp) : SkillRegistry :=
  match op with
  | .reg s =>
      match r.register s with
      | .ok r2 => r2
      | .error _ => r
  | .unreg n => (r.unregister n).1

/-- Running a whole sequence of operations from an empty registry. -/
def runRegOps (ops : List RegOp) : SkillRegistry :=
  ops.foldl applyRegOp SkillRegistry.empty

/-- Alignment of the two registry stores: identical key sequences (hence
identical key sets). -/
def keysAligned (r : SkillRegistry) : Prop :=
  dictKeys r._skills = dictKeys r._metadata_cache

/-! # Theorems -/

/-! ## Unlock-state reducers (C6, C7, C9) -/

theorem nodup_pySliceLast {l : List String} (n : Nat) (h : l.Nodup) :
    (pySliceLast l n).Nodup := by
  unfold pySliceLast
  split
  · exact h
  · exact h.sublist (List.drop_sublist _ _)

theorem accumulator_merge_nodup {current new : List String}
    (hc : current.Nodup) (hn : new.Nodup) :
    (current ++ new.filter (fun s => !current.contains s)).Nodup := by
  refine hc.append (hn.filter _) ?_
  intro a ha haf
  have hpa := List.of_mem_filter haf
  have hna : a ∉ current := by simpa using hpa
  exact hna ha

/-- C6: for every max_size ≥ 1, the FIFO reducer returns the first max_size
elements of `incoming` when `current` is empty, and otherwise the last
max_size elements of the accumulate-style deduplicated concatenation of
`current` and `incoming`; the result's length never exceeds max_size, and
`fifo(2)(["a","b"], ["c"]) = ["b","c"]`. -/
theorem fifo_respects_max (max_skills : Nat) (h : 1 ≤ max_skills)
    (current new : List String) :
    skill_list_fifo max_skills current new
      = (if current = [] then new.take max_skills
         else lastElems max_skills (skill_list_accumulator current new))
    ∧ (skill_list_fifo max_skills current new).length ≤ max_skills
    ∧ skill_list_fifo 2 ["a", "b"] ["c"] = ["b", "c"] := by
  have hmax : max_skills ≠ 0 := by omega
  refine ⟨?_, ?_, by decide⟩
  · unfold skill_list_fifo skill_list_accumulator pySliceLast lastElems
    by_cases hc : current = [] <;> simp [hc, hmax]
  · unfold skill_list_fifo pySliceLast
    by_cases hc : current = [] <;> simp [hc, hmax]
    omega

theorem fifo_respects_max_witness :
    (skill_list_fifo 2 ["a", "b"] ["c"]
       = (if (["a", "b"] : List String) = [] then (["c"] : List String).take 2
          else lastElems 2 (skill_list_accumulator ["a", "b"] ["c"])))
    ∧ (skill_list_fifo 2 ["a", "b"] ["c"]).length ≤ 2
    ∧ skill_list_fifo 2 ["a", "b"] ["c"] = ["b", "c"] :=
  fifo_respects_max 2 (by decide) ["a", "b"] ["c"]

/-- C7 counterexample: with `incoming = ["b","b"]` the accumulate reducer
keeps both copies of `"b"` (it only filters against `current`, never within
`incoming`), so its output has duplicate names; the FIFO reducer inherits the
same duplication. -/
theorem reducers_nodup_counterexample :
    skill_list_accumulator ["a"] ["b", "b"] = ["a", "b", "b"]
    ∧ ¬ (skill_list_accumulator ["a"] ["b", "b"]).Nodup
    ∧ ¬ (skill_list_fifo 3 ["a"] ["b", "b"]).Nodup := by decide

/-- C7 amended: when `current` and `incoming` each contain no duplicate
names, the accumulate reducer's output and every FIFO reducer's output
contain no duplicate names. -/
theorem reducers_preserve_nodup (current new : List String)
    (hc : current.Nodup) (hn : new.Nodup) :
    (skill_list_accumulator current new).Nodup
    ∧ ∀ max_skills, (skill_list_fifo max_skills current new).Nodup := by
  constructor
  · unfold skill_list_accumulator
    split
    · exact hn
    · exact accumulator_merge_nodup hc hn
  · intro max_skills
    unfold skill_list_fifo
    split
    · exact hn.sublist (List.take_sublist _ _)
    · exact nodup_pySliceLast _ (accumulator_merge_nodup hc hn)

theorem reducers_preserve_nodup_witness :
    (skill_list_accumulator ["a"] ["b", "c"]).Nodup
    ∧ (skill_list_fifo 2 ["a"] ["b", "c"]).Nodup :=
  ⟨(reducers_preserve_nodup ["a"] ["b", "c"] (by decide) (by decide)).1,
   (reducers_preserve_nodup ["a"] ["b", "c"] (by decide) (by decide)).2 2⟩

/-- C9: the FIFO factory never checks max_size ≥ 1.  At max_skills = 0 the
produced reducer returns `[]` when `current` is empty, but the whole
deduplicated concatenation when `current` is non-empty (Python
`combined[-0:]` is `combined[0:]`, the full list), so the result length is
unbounded. -/
theorem fifo_zero_unbounded :
    (∀ new : List String, skill_list_fifo 0 [] new = [])
    ∧ (∀ current new : List String, current ≠ [] →
        skill_list_fifo 0 current new
          = current ++ new.filter (fun s => !current.contains s))
    ∧ ∀ n : Nat, ∃ current new : List String,
        current ≠ [] ∧ n < (skill_list_fifo 0 current new).length := by
  refine ⟨?_, ?_, ?_⟩
  · intro new
    simp [skill_list_fifo]
  · intro current new hcur
    simp [skill_list_fifo, hcur, pySliceLast]
  · intro n
    have hne : List.replicate (n + 1) "a" ≠ ([] : List String) := by
      simp
    refine ⟨List.replicate (n + 1) "a", [], hne, ?_⟩
    unfold skill_list_fifo
    rw [if_neg hne]
    simp [pySliceLast]

theorem fifo_zero_unbounded_witness :
    skill_list_fifo 0 ["a"] ["b", "c"]
      = ["a"] ++ (["b", "c"] : List String).filter (fun s => !(["a"].contains s)) :=
  fifo_zero_unbounded.2.1 ["a"] ["b", "c"] (by decide)

/-! ## Tool assembly (C1, C5) -/

theorem gtfs_foldl_eq (r : SkillRegistry) (names : List String) (init : List Tool) :
    names.foldl
      (fun tools name =>
        match dictGet? r._skills name with
        | some skill =>
            if skill.metadata.enabled then tools ++ skill.tools else tools
        | none => tools) init
    = init ++ (names.map (skillToolsFor r)).flatten := by
  induction names generalizing init with
  | nil => simp
  | cons n ns ih =>
    simp only [List.foldl_cons, List.map_cons, List.flatten]
    rw [ih]
    cases hg : dictGet? r._skills n with
    | none => simp [skillToolsFor, hg]
    | some skill =>
        by_cases he : skill.metadata.enabled <;>
          simp [skillToolsFor, hg, he, List.append_assoc]

theorem get_tools_for_skills_eq (r : SkillRegistry) (names : List String) :
    r.get_tools_for_skills names
      = r.get_all_loader_tools ++ (names.map (skillToolsFor r)).flatten := by
  unfold SkillRegistry.get_tools_for_skills
  exact gtfs_foldl_eq r names _

/-- C1 counterexample: in a registry holding the single enabled capability
`X` (one loader, one operation), `get_tools_for_skills(["X","X"])` appends
`X`'s operation once per occurrence of the name, so its result is not the
result of `get_tools_for_skills(["X"])`. -/
theorem duplicate_unlock_counterexample :
    regX.get_tools_for_skills ["X", "X"]
        = [some loadToolX, some opToolX, some opToolX]
    ∧ regX.get_tools_for_skills ["X"] = [some loadToolX, some opToolX]
    ∧ regX.get_tools_for_skills ["X", "X"] ≠ regX.get_tools_for_skills ["X"] := by
  decide

/-- C1 amended: a duplicated unlocked name adds no new tool — the result for
`[x, x]` contains exactly the same tools as the result for `[x]` — but the
returned list repeats the duplicated capability's operation tools once per
occurrence (it is the `[x]` result followed by `x`'s tools again). -/
theorem duplicate_unlock_same_tool_set (r : SkillRegistry) (x : String) :
    (∀ t, t ∈ r.get_tools_for_skills [x, x] ↔ t ∈ r.get_tools_for_skills [x])
    ∧ r.get_tools_for_skills [x, x]
        = r.get_tools_for_skills [x] ++ skillToolsFor r x := by
  have heq : r.get_tools_for_skills [x, x]
      = r.get_tools_for_skills [x] ++ skillToolsFor r x := by
    rw [get_tools_for_skills_eq, get_tools_for_skills_eq]
    simp [List.flatten, List.append_assoc]
  refine ⟨?_, heq⟩
  intro t
  rw [heq, get_tools_for_skills_eq]
  simp [List.mem_append, List.mem_flatten]

/-- A name absent from `_skills` contributes no tools. -/
theorem skillToolsFor_unregistered (r : SkillRegistry) (name : String)
    (h : dictContains r._skills name = false) :
    skillToolsFor r name = [] := by
  unfold skillToolsFor dictGet?
  cases hf : r._skills.find? (fun p => p.1 = name) with
  | none => simp
  | some p =>
      exfalso
      have hm := List.mem_of_find?_eq_some hf
      have hp := List.find?_some hf
      unfold dictContains at h
      have hany : r._skills.any (fun q => q.1 = name) = true :=
        List.any_eq_true.mpr ⟨p, hm, hp⟩
      rw [h] at hany
      exact Bool.false_ne_true hany

/-- C5: a name in the unlocked list that is not a key of `_skills` is
silently skipped — the assembled tool list is exactly what it would be with
every occurrence of that name removed. -/
theorem lenient_unknown_name (r : SkillRegistry) (names : List String)
    (name : String) (h : dictContains r._skills name = false) :
    r.get_tools_for_skills names
      = r.get_tools_for_skills (names.filter (fun n => n ≠ name)) := by
  rw [get_tools_for_skills_eq, get_tools_for_skills_eq]
  congr 1
  induction names with
  | nil => rfl
  | cons hd tl ih =>
    by_cases hh : hd = name
    · subst hh
      simp [skillToolsFor_unregistered r hd h, ih]
    · simp [hh, ih]

theorem lenient_unknown_name_witness :
    dictContains regX._skills "U" = false
    ∧ regX.get_tools_for_skills ["U", "X"]
        = regX.get_tools_for_skills
            ((["U", "X"] : List String).filter (fun n => n ≠ "U")) :=
  ⟨by decide, lenient_unknown_name regX ["U", "X"] "U" (by decide)⟩

/-! ## register validation (C3) -/

/-- C3 counterexample: registering a skill named `X` with an empty
description raises Python `ValueError("Skill description cannot be empty")`
— not a `SkillLoadError` — and the reason string does not carry the
capability's intended name `X`. -/
theorem register_validation_error_counterexample :
    SkillRegistry.empty.register badSkillNoDesc
      = Except.error (PyError.valueError "Skill description cannot be empty")
    ∧ isSkillLoadError (SkillRegistry.empty.register badSkillNoDesc) = false
    ∧ pyInStr "X" "Skill description cannot be empty" = false := by decide

/-- C3 amended: when a capability fails self-validation, `register` raises
exactly the `ValueError` produced by `validate` (a generic human-readable
reason that is not a `SkillLoadError` and carries no capability name), and
it leaves the registry unchanged — validation runs before either map is
written. -/
theorem register_validation_atomic (r : SkillRegistry) (s : BaseSkill)
    (e : PyError) (h : s.validate = Except.error e) :
    r.register s = Except.error e
    ∧ (∃ msg, e = PyError.valueError msg)
    ∧ applyRegOp r (RegOp.reg s) = r := by
  have hreg : r.register s = Except.error e := by
    unfold SkillRegistry.register
    rw [h]
  refine ⟨hreg, ?_, ?_⟩
  · unfold BaseSkill.validate at h
    split_ifs at h <;> injection h with h2 <;> exact ⟨_, h2.symm⟩
  · simp only [applyRegOp, hreg]

theorem register_validation_atomic_witness :
    SkillRegistry.empty.register badSkillNoDesc
        = Except.error (PyError.valueError "Skill description cannot be empty")
    ∧ (∃ msg, PyError.valueError "Skill description cannot be empty"
          = PyError.valueError msg)
    ∧ applyRegOp SkillRegistry.empty (RegOp.reg badSkillNoDesc)
        = SkillRegistry.empty :=
  register_validation_atomic SkillRegistry.empty badSkillNoDesc
    (PyError.valueError "Skill description cannot be empty") (by decide)

/-! ## Exposure middleware (C2) -/

/-- C2 counterexample: `SkillMiddleware` stores `filter_fn` but
`_get_filtered_tools` never applies it — with a filter that rejects `X`'s
loader tool, the middleware still offers that loader. -/
theorem middleware_filter_ignored_counterexample :
    mwX.get_filtered_tools [] = [some loadToolX]
    ∧ fBlockLoader (some loadToolX) = false := by decide

/-- C2 amended: `SimpleSkillMiddleware.get_tools_for_state` intersects the
assembled tools with the caller-supplied predicate — every tool it returns
satisfies `filter_fn` — whereas the `AgentMiddleware`-based `SkillMiddleware`
offers exactly `registry.get_tools_for_skills(skills_loaded)`, ignoring its
stored `filter_fn`. -/
theorem middleware_filter_amended :
    (∀ (m : MiddlewareSimple.SimpleSkillMiddleware) (skills : List String)
        (f : Tool → Bool), m.filter_fn = some f →
        ∀ t ∈ m.get_tools_for_state skills, f t = true)
    ∧ ∀ (m : Middleware.SkillMiddleware) (skills : List String),
        m.get_filtered_tools skills
          = m.registry.get_tools_for_skills skills := by
  constructor
  · intro m skills f hf t ht
    simp only [MiddlewareSimple.SimpleSkillMiddleware.get_tools_for_state, hf]
      at ht
    exact List.of_mem_filter ht
  · intro m skills
    rfl

theorem middleware_filter_amended_witness :
    fKeepLoader (some loadToolX) = true :=
  middleware_filter_amended.1 mwSimpleX [] fKeepLoader rfl (some loadToolX)
    (by decide)

/-! ## Discovery (C8) -/

theorem discover_foldl_skip (r : SkillRegistry) (pre post : List SubdirEntry)
    (e : PyError) :
    (pre ++ SubdirEntry.loads (Except.error e) :: post).foldl
        discoverStep (r, 0)
      = (pre ++ post).foldl discoverStep (r, 0) := by
  rw [List.foldl_append, List.foldl_append, List.foldl_cons]
  rfl

/-- C8: a subdirectory whose load raises is skipped — dropping it from the
listing leaves the discovery result unchanged, so the remaining
subdirectories are still processed and nothing from the failing one is
registered; concretely, with three candidate subdirectories of which the
middle one's factory raises, the other two capabilities are registered and
the returned count is 2. -/
theorem discover_partial_failure :
    (∀ (r : SkillRegistry) (pre post : List SubdirEntry) (e : PyError),
        r.discover_and_load true
            (pre ++ SubdirEntry.loads (Except.error e) :: post)
          = r.discover_and_load true (pre ++ post))
    ∧ (SkillRegistry.empty.discover_and_load true
          [SubdirEntry.loads (Except.ok skillA),
           SubdirEntry.loads
             (Except.error (PyError.skillLoadError "b" "create_skill raised")),
           SubdirEntry.loads (Except.ok skillC)]).2 = 2
    ∧ dictContains (SkillRegistry.empty.discover_and_load true
          [SubdirEntry.loads (Except.ok skillA),
           SubdirEntry.loads
             (Except.error (PyError.skillLoadError "b" "create_skill raised")),
           SubdirEntry.loads (Except.ok skillC)]).1._skills "A" = true
    ∧ dictContains (SkillRegistry.empty.discover_and_load true
          [SubdirEntry.loads (Except.ok skillA),
           SubdirEntry.loads
             (Except.error (PyError.skillLoadError "b" "create_skill raised")),
           SubdirEntry.loads (Except.ok skillC)]).1._skills "C" = true := by
  refine ⟨?_, by decide, by decide, by decide⟩
  intro r pre post e
  show (pre ++ SubdirEntry.loads (Except.error e) :: post).foldl
      discoverStep (r, 0)
    = (pre ++ post).foldl discoverStep (r, 0)
  exact discover_foldl_skip r pre post e

/-! ## Registry store alignment (C4) -/

theorem dictKeys_append (d1 d2 : List (String × α)) :
    dictKeys (d1 ++ d2) = dictKeys d1 ++ dictKeys d2 := by
  simp [dictKeys]

theorem keys_map_replace (d : List (String × α)) (k : String) (v : α) :
    dictKeys (d.map (fun p => if p.1 = k then (k, v) else p)) = dictKeys d := by
  induction d with
  | nil => rfl
  | cons p tl ih =>
    simp only [dictKeys, List.map_cons] at ih ⊢
    by_cases h : p.1 = k <;> simp [h, ih]

theorem dictContains_keys (d : List (String × α)) (k : String) :
    dictContains d k = (dictKeys d).any (fun s => s = k) := by
  induction d with
  | nil => rfl
  | cons p tl ih =>
      simp only [dictContains, dictKeys, List.any_cons, List.map_cons] at ih ⊢
      rw [ih]

theorem keys_dictInsert_pair {α β : Type} (d1 : List (String × α))
    (d2 : List (String × β)) (k : String) (v : α) (w : β)
    (h : dictKeys d1 = dictKeys d2) :
    dictKeys (dictInsert d1 k v) = dictKeys (dictInsert d2 k w) := by
  have hc : dictContains d1 k = dictContains d2 k := by
    rw [dictContains_keys, dictContains_keys, h]
  unfold dictInsert
  rw [hc]
  cases hb : dictContains d2 k
  · simp only [hb, Bool.false_eq_true, if_false]
    rw [dictKeys_append, dictKeys_append, h]
    simp [dictKeys]
  · simp only [hb, if_true]
    rw [keys_map_replace, keys_map_replace, h]

theorem keys_filter_ne (d : List (String × α)) (k : String) :
    dictKeys (d.filter (fun p => p.1 ≠ k))
      = (dictKeys d).filter (fun s => s ≠ k) := by
  induction d with
  | nil => rfl
  | cons p tl ih =>
    by_cases h : p.1 = k
    · simpa [dictKeys, List.filter_cons, h] using ih
    · simpa [dictKeys, List.filter_cons, h] using ih

theorem dictDelete_ok (d : List (String × α)) (k : String)
    (h : dictContains d k = true) :
    dictDelete d k = .ok (d.filter (fun p => p.1 ≠ k)) := by
  unfold dictDelete
  rw [h]
  simp

theorem keysAligned_register (r : SkillRegistry) (s : BaseSkill)
    (r2 : SkillRegistry) (h : keysAligned r)
    (hreg : r.register s = Except.ok r2) : keysAligned r2 := by
  unfold SkillRegistry.register at hreg
  cases hv : s.validate with
  | error e =>
      rw [hv] at hreg
      exact Except.noConfusion hreg
  | ok b =>
      rw [hv] at hreg
      injection hreg with h2
      subst h2
      exact keys_dictInsert_pair _ _ _ _ _ h

theorem keysAligned_unregister (r : SkillRegistry) (n : String)
    (h : keysAligned r) : keysAligned (r.unregister n).1 := by
  unfold SkillRegistry.unregister
  cases hc : dictContains r._skills n
  · simpa using h
  · have hc2 : dictContains r._metadata_cache n = true := by
      rw [dictContains_keys] at hc ⊢
      rw [← h]
      exact hc
    rw [dictDelete_ok _ _ hc, dictDelete_ok _ _ hc2]
    unfold keysAligned
    have h1 := keys_filter_ne r._skills n
    have h2 := keys_filter_ne r._metadata_cache n
    simp only [ne_eq, decide_not] at h1 h2
    unfold keysAligned at h
    simp [h1, h2, h]

theorem keysAligned_applyRegOp (r : SkillRegistry) (op : RegOp)
    (h : keysAligned r) : keysAligned (applyRegOp r op) := by
  cases op with
  | reg s =>
      cases hreg : r.register s with
      | ok r2 =>
          simp only [applyRegOp, hreg]
          exact keysAligned_register r s r2 h hreg
      | error e =>
          simp only [applyRegOp, hreg]
          exact h
  | unreg n =>
      simpa only [applyRegOp] using keysAligned_unregister r n h

/-- C4: after any sequence of `register` / `unregister` calls starting from
an empty registry (exceptions caught by the caller), `_skills` and
`_metadata_cache` have the same key sequence, hence the same key set. -/
theorem registry_key_sets_aligned (ops : List RegOp) :
    dictKeys (runRegOps ops)._skills
      = dictKeys (runRegOps ops)._metadata_cache := by
  suffices hgen : ∀ (l : List RegOp) (r : SkillRegistry), keysAligned r →
      keysAligned (l.foldl applyRegOp r) by
    exact hgen ops SkillRegistry.empty rfl
  intro l
  induction l with
  | nil => exact fun r h => h
  | cons op tl ih => exact fun r h => ih _ (keysAligned_applyRegOp r op h)

/-! ## Search (C10) -/

theorem searchAccepts_no_tags (q : String) (meta : SkillMetadata) :
    searchAccepts q [] none meta
      = (if q = "" then true
         else pyInStr q.toLower meta.name.toLower
           || pyInStr q.toLower meta.description.toLower) := by
  unfold searchAccepts
  by_cases hq : q = "" <;> simp [hq]

/-- C10: tag matching in `search` is exact and case-sensitive — a capability
tagged `"math"` but not `"Math"` is never returned by
`search(tags=["Math"])` — while the query is matched case-insensitively as a
substring of the name or the description. -/
theorem search_tag_case_sensitive (r : SkillRegistry) (meta : SkillMetadata) :
    (meta.tags.contains "math" = true → meta.tags.contains "Math" = false →
        meta ∉ r.search "" ["Math"] none)
    ∧ ∀ q, meta ∈ r.search q [] none ↔
        meta ∈ dictValues r._metadata_cache
        ∧ (q = "" ∨ (pyInStr q.toLower meta.name.toLower
              || pyInStr q.toLower meta.description.toLower) = true) := by
  constructor
  · intro _hmath hMath hmem
    unfold SkillRegistry.search at hmem
    have hp := List.of_mem_filter hmem
    unfold searchAccepts at hp
    simp at hp
    exact absurd hp (by simpa using hMath)
  · intro q
    unfold SkillRegistry.search
    rw [List.mem_filter, searchAccepts_no_tags]
    by_cases hq : q = "" <;> simp [hq]

theorem search_tag_case_sensitive_witness :
    skillX.metadata ∉ regX.search "" ["Math"] none :=
  (search_tag_case_sensitive regX skillX.metadata).1 (by decide) (by decide)

end SkillSystem2
